/-
Verification of the mcp-codegen core subsystems: a shallow embedding of the
protocol client (transport probing, initialize handshake, tool invocation with
retry), the header utilities, the sandboxed execution runner (output
truncation, resource limits, exit codes) and the privacy scrubber, together
with theorems settling the specification claims about them.

Python dicts of strings are modelled as association lists in insertion order:
assigning to an existing key updates it in place, assigning a fresh key
appends it.  Machine-level effects that the claims do not touch (actual HTTP
I/O, OS calls, uuid generation) enter the model as explicit environment
values fed to the pure control flow translated from the source.
-/
import Mathlib

/-! ## String helpers (models of the Python built-ins the source uses) -/

/-- Substring containment, modelling Python's `needle in hay` on strings. -/
def strContainsSub (hay needle : String) : Bool :=
  (List.range (hay.data.length + 1)).any
    (fun i => needle.data.isPrefixOf (hay.data.drop i))

/-- Python `str.split(sep)` for a one-character separator: splitting the empty
string yields `[""]`, and separators delimit (possibly empty) fields. -/
def splitOnChar (sep : Char) : List Char → List (List Char)
  | [] => [[]]
  | c :: rest =>
    let r := splitOnChar sep rest
    if c = sep then [] :: r
    else
      match r with
      | h :: t => (c :: h) :: t
      | [] => [[c]]

/-- The whitespace characters Python's `str.strip()` removes (ASCII range). -/
def isPySpace (c : Char) : Bool :=
  c = ' ' || c = '\t' || c = '\n' || c = '\r' || c = '\x0b' || c = '\x0c'

/-- Python `str.strip()`: drop leading and trailing whitespace. -/
def pyStrip (s : String) : String :=
  ⟨((s.data.dropWhile isPySpace).reverse.dropWhile isPySpace).reverse⟩

/-- Python `str.lower()` (ASCII case folding, which covers every string the
source compares). -/
def pyLower (s : String) : String :=
  ⟨s.data.map Char.toLower⟩

/-- Python `str.split(",")`. -/
def pySplitComma (s : String) : List String :=
  (splitOnChar ',' s.data).map (fun cs => ⟨cs⟩)

/-! ## Python dict model -/

/-- Python dict lookup `d.get(k)` on a string-valued dict. -/
def dget (d : List (String × String)) (k : String) : Option String :=
  (d.find? (fun p => p.1 = k)).map (fun p => p.2)

/-- Python dict assignment `d[k] = v`: update in place if the key exists,
else append. -/
def dset (d : List (String × String)) (k v : String) : List (String × String) :=
  if d.any (fun p => p.1 = k) then
    d.map (fun p => if p.1 = k then (k, v) else p)
  else d ++ [(k, v)]

/-- Python `{**a, **b}`-style merge: start from `a` and assign every entry of
`b` in order. -/
def dmerge (a b : List (String × String)) : List (String × String) :=
  b.foldl (fun acc p => dset acc p.1 p.2) a

/-! ## `utils.ensure_accept_headers` -/

/-- The tokenization of an `Accept` value in `ensure_accept_headers`:
`[v.strip().lower() for v in value.split(",") if v.strip()]`. -/
def acceptTokens (a : String) : List String :=
  (pySplitComma a).filterMap
    (fun v => if pyStrip v = "" then none else some (pyLower (pyStrip v)))

/-- `utils.ensure_accept_headers`: copy the incoming headers, tokenize the
existing `Accept` value on commas (stripping whitespace and lowercasing,
dropping empty tokens), and if either required media type is missing,
overwrite `Accept` with the fixed dual value. -/
def ensure_accept_headers (headers : Option (List (String × String)) := none) :
    List (String × String) :=
  let merged := headers.getD []
  let accept_values := acceptTokens ((dget merged "Accept").getD "")
  if !(accept_values.contains "application/json")
      || !(accept_values.contains "text/event-stream") then
    dset merged "Accept" "application/json, text/event-stream"
  else merged

/-! ## Protocol client (`client.py`) -/

/-- `constants.MCP_PROTOCOL_VERSION`. -/
def MCP_PROTOCOL_VERSION : String := "2025-06-18"

/-- `client.InitializeCache`: the data cached in `Client._init` after a
successful initialize handshake. -/
structure InitializeCache where
  protocol_version : String
  server_info : List (String × String)
deriving DecidableEq

/-- The mutable fields of `client.Client` that the claims concern.
`headersArg` is the constructor argument `self.headers`; `transportCache`
is `self._transport`; `initCache` is `self._init`; `storedHeaders` is the
`self._headers` attribute that `_initialize` assigns on success ("Store the
headers for subsequent requests"). -/
structure ClientState where
  headersArg : List (String × String) := []
  retries : Nat := 2
  transportCache : Option String := none
  initCache : Option InitializeCache := none
  storedHeaders : Option (List (String × String)) := none
deriving DecidableEq

/-- The environment a single run of `Client._initialize` observes: whether the
HTTP layer raised (`httpx.HTTPError`, including a non-2xx status via
`raise_for_status`), the session id found in the response headers, the parsed
response body's `error` message if any, its `result.protocolVersion` if any,
its `result.serverInfo`, and the uuid `uuid.uuid4()` would mint. -/
structure InitEnv where
  httpError : Bool := false
  sessionId : Option String := none
  respError : Option String := none
  respProtocolVersion : Option String := none
  respServerInfo : List (String × String) := []
  mintedUuid : String := "00000000-0000-0000-0000-000000000000"

/-- The request headers `Client._initialize` sends: `ensure_accept_headers`
applied to `{"mcp-protocol-version": MCP_PROTOCOL_VERSION, **self.headers}`. -/
def initRequestHeaders (headersArg : List (String × String)) :
    List (String × String) :=
  ensure_accept_headers
    (some (dmerge [("mcp-protocol-version", MCP_PROTOCOL_VERSION)] headersArg))

/-- `Client._initialize`: on an HTTP error or a JSON-RPC `error` field it
raises `VersionNegotiationError` (modelled as `.error`); otherwise it takes the
server's `protocolVersion` (defaulting to the client's), writes the negotiated
version and a session id (the response header's value, else a fresh uuid) into
the local header dict, stores those headers, and returns the cache. -/
def clientInitialize (c : ClientState) (env : InitEnv) :
    Except String (InitializeCache × List (String × String)) :=
  if env.httpError then
    Except.error "VersionNegotiationError: HTTP error during initialize"
  else
    match env.respError with
    | some m => Except.error ("VersionNegotiationError: Initialize failed: " ++ m)
    | none =>
      let headers := initRequestHeaders c.headersArg
      let server_version := env.respProtocolVersion.getD MCP_PROTOCOL_VERSION
      let headers := dset headers "mcp-protocol-version" server_version
      let headers := dset headers "Mcp-Session-Id"
        (match env.sessionId with
         | some s => s
         | none => env.mintedUuid)
      Except.ok (⟨server_version, env.respServerInfo⟩, headers)

/-- `Client.ensure_ready`: probe the transport if `self._transport is None`,
then run `_initialize` if `self._init is None`, caching each result only on
success.  The probe's and the handshake's outcomes are supplied by the
environment (`probeRes`, `env`); besides the final state and the raised or
successful outcome, the model reports how many probes and how many handshakes
this call performed. -/
def ensure_ready (c : ClientState) (probeRes : Except String String)
    (env : InitEnv) : (ClientState × Except String Unit) × Nat × Nat :=
  match c.transportCache with
  | none =>
    (match probeRes with
     | Except.error e => ((c, Except.error e), 1, 0)
     | Except.ok t =>
       let c1 := { c with transportCache := some t }
       match c1.initCache with
       | none =>
         (match clientInitialize c1 env with
          | Except.error e => ((c1, Except.error e), 1, 1)
          | Except.ok (cache, stored) =>
            (({ c1 with initCache := some cache, storedHeaders := some stored },
              Except.ok ()), 1, 1))
       | some _ => ((c1, Except.ok ()), 1, 0))
  | some _ =>
    match c.initCache with
    | none =>
      (match clientInitialize c env with
       | Except.error e => ((c, Except.error e), 0, 1)
       | Except.ok (cache, stored) =>
         (({ c with initCache := some cache, storedHeaders := some stored },
           Except.ok ()), 0, 1))
    | some _ => ((c, Except.ok ()), 0, 0)

/-- The headers `Client.call_tool` attaches to the `tools/call` request:
`ensure_accept_headers(self.headers)`, plus the negotiated
`mcp-protocol-version` when `self._init` is set.  (This is the whole header
computation of `call_tool`; it reads `self.headers`, not the `self._headers`
stored by `_initialize`.) -/
def callToolRequestHeaders (c : ClientState) : List (String × String) :=
  let headers := ensure_accept_headers (some c.headersArg)
  match c.initCache with
  | some i => dset headers "mcp-protocol-version" i.protocol_version
  | none => headers

/-- The JSON-RPC `id` of the `initialize` request `Client._initialize` builds
(`"id": 1` in the payload literal). -/
def initializeRequestId : Nat := 1

/-- The JSON-RPC `id` of every `tools/call` request `Client.call_tool` builds
(`"id": 2` in the payload literal). -/
def toolsCallRequestId : Nat := 2

/-- The ids of all JSON-RPC requests a Client issues over its lifetime when it
performs its single initialize and then `nCalls` tool calls. -/
def requestIds (nCalls : Nat) : List Nat :=
  initializeRequestId :: List.replicate nCalls toolsCallRequestId

/-! ### The retry loop of `Client.call_tool` -/

/-- What one iteration of the `call_tool` request loop observes: a parsed
response carrying a result, an `httpx.TransportError`/`httpx.ReadError`, an
HTTP status error raised by `raise_for_status` (an `httpx.HTTPStatusError`,
which the loop does not catch), or a JSON-RPC `error` field. -/
inductive AttemptOutcome where
  | ok (result : String)
  | transportErr (e : String)
  | statusErr (code : Nat)
  | rpcErr (code : Int) (msg : String)
deriving DecidableEq

/-- How `call_tool` terminates: a returned result, an immediately raised
`JSONRPCError`, a propagated HTTP status error, or a terminal `ToolCallError`
wrapping the last transport error after all attempts failed. -/
inductive CallOutcome where
  | result (r : String)
  | raisedRpc (code : Int) (msg : String)
  | raisedStatus (code : Nat)
  | raisedToolCall (lastError : Option String)
deriving DecidableEq

/-- The body of `for attempt in range(self._retries + 1)` in
`Client.call_tool`.  `attempts k` is what the `k`-th request attempt observes;
`fuel` counts the loop iterations left (`retries + 1` at entry).  Besides the
outcome, the model returns the list of backoff delays slept, in seconds:
`wait_time = 0.3 * (2 ** attempt)` is slept only when a transport error occurs
and `attempt < retries`.  Falling out of the loop raises `ToolCallError`
wrapping `last_error`. -/
def callToolGo (attempts : Nat → AttemptOutcome) (retries : Nat) :
    Nat → Nat → Option String → CallOutcome × List ℚ
  | _, 0, lastError => (CallOutcome.raisedToolCall lastError, [])
  | attempt, fuel + 1, _ =>
    match attempts attempt with
    | AttemptOutcome.ok r => (CallOutcome.result r, [])
    | AttemptOutcome.rpcErr c m => (CallOutcome.raisedRpc c m, [])
    | AttemptOutcome.statusErr c => (CallOutcome.raisedStatus c, [])
    | AttemptOutcome.transportErr e =>
      if attempt < retries then
        let w : ℚ := 3 / 10 * 2 ^ attempt
        let rest := callToolGo attempts retries (attempt + 1) fuel (some e)
        (rest.1, w :: rest.2)
      else
        callToolGo attempts retries (attempt + 1) fuel (some e)

/-- The retry loop of `Client.call_tool`, started like the source's
`for attempt in range(self._retries + 1)` with `last_error = None`. -/
def call_tool_retry (attempts : Nat → AttemptOutcome) (retries : Nat) :
    CallOutcome × List ℚ :=
  callToolGo attempts retries 0 (retries + 1) none

/-- The default of the `retries` constructor argument of `client.Client`. -/
def defaultRetries : Nat := 2

/-! ## Transport prober (`codegen.detect_transport`) -/

/-- One HTTP exchange as the prober sees it: either some `httpx.HTTPError`
(timeout, connection failure, ...) or a response with a status code and a
`content-type` header value. -/
inductive HttpOutcome where
  | err
  | resp (status : Nat) (contentType : String)
deriving DecidableEq

/-- The five network exchanges `detect_transport` can perform: `HEAD /mcp`,
the fallback `POST /mcp` initialize probe, `HEAD /sse`, the fallback
`GET /sse` stream, and the plain JSON-RPC `POST /mcp` probe. -/
structure ProbeEnv where
  headMcp : HttpOutcome := HttpOutcome.err
  postMcp : HttpOutcome := HttpOutcome.err
  headSse : HttpOutcome := HttpOutcome.err
  getSse : HttpOutcome := HttpOutcome.err
  postProbe : HttpOutcome := HttpOutcome.err

/-- `"text/event-stream" in ct.lower()`. -/
def hasEventStream (ct : String) : Bool :=
  strContainsSub (pyLower ct) "text/event-stream"

/-- Step 1 of `detect_transport`: `HEAD /mcp` expecting an event-stream; on
405 fall back to a streaming `POST /mcp` initialize probe.  Any
`httpx.HTTPError` is swallowed (`except ...: pass`), yielding `none`. -/
def probeStep1 (e : ProbeEnv) : Option String :=
  match e.headMcp with
  | HttpOutcome.err => none
  | HttpOutcome.resp st ct =>
    if st = 200 && hasEventStream ct then some "streamable-http"
    else if st = 405 then
      match e.postMcp with
      | HttpOutcome.err => none
      | HttpOutcome.resp st2 ct2 =>
        if st2 = 200 && hasEventStream ct2 then some "streamable-http" else none
    else none

/-- Step 2 of `detect_transport`: `HEAD /sse` expecting an event-stream; on
405 or 501 fall back to a short `GET /sse` stream.  Errors are swallowed. -/
def probeStep2 (e : ProbeEnv) : Option String :=
  match e.headSse with
  | HttpOutcome.err => none
  | HttpOutcome.resp st ct =>
    if st = 200 && hasEventStream ct then some "sse"
    else if st = 405 || st = 501 then
      match e.getSse with
      | HttpOutcome.err => none
      | HttpOutcome.resp st2 ct2 =>
        if st2 = 200 && hasEventStream ct2 then some "sse" else none
    else none

/-- Step 3 of `detect_transport`: a cheap JSON-RPC `POST /mcp`; any status in
{200, 400, 401, 403, 415, 422} confirms a reachable POST endpoint. -/
def probeStep3 (e : ProbeEnv) : Option String :=
  match e.postProbe with
  | HttpOutcome.err => none
  | HttpOutcome.resp st _ =>
    if [200, 400, 401, 403, 415, 422].contains st then some "http-post" else none

/-- `codegen.detect_transport`: the three probe steps in order, first success
wins, falling through to `"unknown"`. -/
def detect_transport (e : ProbeEnv) : String :=
  match probeStep1 e with
  | some r => r
  | none =>
    match probeStep2 e with
    | some r => r
    | none =>
      match probeStep3 e with
      | some r => r
      | none => "unknown"

/-! ## Execution runner (`runner/run.py`, `runner/limits.py`) -/

/-- The truncation marker `TruncatedStringIO.write` appends:
`f"\n[OUTPUT TRUNCATED at {self.max_size} bytes]\n"`. -/
def truncationMarker (max_size : Nat) : String :=
  "\n[OUTPUT TRUNCATED at " ++ toString max_size ++ " bytes]\n"

/-- `run.TruncatedStringIO`: a bounded output buffer.  `size` counts the
content characters accepted so far (the marker is not counted). -/
structure TruncatedStringIO where
  max_size : Nat := 200 * 1024
  buffer : List String := []
  size : Nat := 0
deriving DecidableEq

/-- `TruncatedStringIO.write`: a write at or past the bound is skipped and
returns 0; a write that would cross the bound keeps only the prefix that fits
and appends the truncation marker; otherwise the text is appended whole.  The
returned number is the source's `len(text)` after the possible reassignment of
`text` to its kept prefix. -/
def TruncatedStringIO.write (s : TruncatedStringIO) (text : String) :
    TruncatedStringIO × Nat :=
  if s.size ≥ s.max_size then (s, 0)
  else
    let available := s.max_size - s.size
    if text.length > available then
      let kept : String := ⟨text.data.take available⟩
      ({ s with
          buffer := s.buffer ++ [kept] ++ [truncationMarker s.max_size],
          size := s.max_size },
       kept.length)
    else
      ({ s with buffer := s.buffer ++ [text], size := s.size + text.length },
       text.length)

/-- `TruncatedStringIO.getvalue`: `''.join(self.buffer)`. -/
def TruncatedStringIO.getvalue (s : TruncatedStringIO) : String :=
  String.join s.buffer

/-- Feed a sequence of writes to the buffer, discarding the return values. -/
def writeAll (s : TruncatedStringIO) (ws : List String) : TruncatedStringIO :=
  ws.foldl (fun st w => (st.write w).1) s

/-- How the `exec(code, namespace)` call inside `run_agent_code` terminates:
normally, with a `KeyboardInterrupt`, or with any other `Exception` carrying
its type name and message. -/
inductive CodeOutcome where
  | normal
  | interrupt
  | raised (kind : String) (msg : String)
deriving DecidableEq

/-- The resource-usage snapshot `limits.get_usage` collects. -/
structure Usage where
  cpu_time : ℚ := 0
  max_rss_kb : Nat := 0
  page_faults : Nat := 0
  voluntary_switches : Nat := 0
  involuntary_switches : Nat := 0
deriving DecidableEq

/-- The structured result dict `run_agent_code` returns. -/
structure ExecutionResult where
  status : String
  stdout : String
  stderr : String
  usage : Usage
deriving DecidableEq

/-- The `try/except KeyboardInterrupt/except Exception` of
`runner/run.run_agent_code`: every outcome of the user code is converted into
a structured result; nothing escapes.  `captured_stdout`/`captured_stderr` are
the bounded buffers' contents at the moment of termination and `usage` is the
`get_usage()` snapshot. -/
def run_agent_code (outcome : CodeOutcome)
    (captured_stdout captured_stderr : String) (usage : Usage) :
    ExecutionResult :=
  match outcome with
  | CodeOutcome.normal =>
    ⟨"success", captured_stdout, captured_stderr, usage⟩
  | CodeOutcome.interrupt =>
    ⟨"interrupted", captured_stdout, "Execution interrupted by user", usage⟩
  | CodeOutcome.raised kind msg =>
    ⟨"error", captured_stdout, kind ++ ": " ++ msg, usage⟩

/-- The exit-code selection at the end of `runner/run.main`: `sys.exit(1)` on
`error`, `sys.exit(130)` on `interrupted`, and falling off `main` (exit 0)
otherwise. -/
def mainExitCode (r : ExecutionResult) : Nat :=
  if r.status = "error" then 1
  else if r.status = "interrupted" then 130
  else 0

/-- The four rlimits `limits.apply_limits` installs (CPU seconds, address
space in bytes, open files, processes). -/
structure RLimits where
  cpu : Nat
  address_space : Nat
  nofile : Nat
  nproc : Nat
deriving DecidableEq

/-- `limits.apply_limits` with its Python defaults: the address-space ceiling
is `max_memory_mb * 1024 * 1024` bytes. -/
def apply_limits (cpu_seconds : Nat := 10) (max_memory_mb : Nat := 512)
    (max_files : Nat := 64) (max_processes : Nat := 64) : RLimits :=
  ⟨cpu_seconds, max_memory_mb * 1024 * 1024, max_files, max_processes⟩

/-- The limits actually installed by `run_agent_code`, which calls
`apply_limits()` with no arguments. -/
def runAgentCodeLimits : RLimits := apply_limits

/-- The runner's parsed command-line arguments that concern resource limits
(`--cpu-seconds`, `--memory-mb`, with their argparse defaults). -/
structure RunnerArgs where
  cpu_seconds : Nat := 10
  memory_mb : Nat := 512
deriving DecidableEq

/-- The limits in force when `runner/run.main` executes code with the given
arguments: `main` calls `run_agent_code`, and the parsed `cpu_seconds` and
`memory_mb` values flow nowhere else, so the installed limits are
`runAgentCodeLimits` regardless of the arguments. -/
def mainAppliedLimits (_args : RunnerArgs) : RLimits := runAgentCodeLimits

/-! ## Privacy scrubber (`runner/privacy.py`) -/

/-- The JSON-like values `Scrubber.scrub_dict` traverses. -/
inductive JsonVal where
  | str (s : String)
  | num (n : Int)
  | boolean (b : Bool)
  | null
  | list (items : List JsonVal)
  | dict (entries : List (String × JsonVal))

/-- The credential-suggestive key test of `scrub_dict`:
`any(term in key_lower for term in ['password', 'token', 'secret', 'key',
'auth'])`. -/
def sensitiveKey (k : String) : Bool :=
  ["password", "token", "secret", "key", "auth"].any
    (fun t => strContainsSub (pyLower k) t)

/-- The list comprehension in `scrub_dict`'s list branch:
`[self.scrub_text(v) if isinstance(v, str) else v for v in value]` — only
string elements are scrubbed, every other element is kept as-is. -/
def scrubListElems (scrub_text : String → String) : List JsonVal → List JsonVal
  | [] => []
  | JsonVal.str s :: rest => JsonVal.str (scrub_text s) :: scrubListElems scrub_text rest
  | v :: rest => v :: scrubListElems scrub_text rest

/-- `Scrubber.scrub_dict`, parametrized by the instance's `scrub_text` (the
pattern-substitution pass, whose patterns depend on the scrub level): string
values under a credential-suggestive key become `"[REDACTED]"`, other string
values are passed to `scrub_text`, dict values recurse, list values have only
their top-level string elements scrubbed, and all other values are copied
unchanged. -/
def scrub_dict (scrub_text : String → String) :
    List (String × JsonVal) → List (String × JsonVal)
  | [] => []
  | (k, JsonVal.str s) :: rest =>
    (k, if sensitiveKey k then JsonVal.str "[REDACTED]"
        else JsonVal.str (scrub_text s)) :: scrub_dict scrub_text rest
  | (k, JsonVal.dict d) :: rest =>
    (k, JsonVal.dict (scrub_dict scrub_text d)) :: scrub_dict scrub_text rest
  | (k, JsonVal.list items) :: rest =>
    (k, JsonVal.list (scrubListElems scrub_text items)) :: scrub_dict scrub_text rest
  | (k, v) :: rest => (k, v) :: scrub_dict scrub_text rest

/-- The per-entry action of `scrub_dict` (used to characterize the traversal
as an elementwise map). -/
def scrubEntry (scrub_text : String → String) :
    String × JsonVal → String × JsonVal
  | (k, JsonVal.str s) =>
    (k, if sensitiveKey k then JsonVal.str "[REDACTED]"
        else JsonVal.str (scrub_text s))
  | (k, JsonVal.dict d) => (k, JsonVal.dict (scrub_dict scrub_text d))
  | (k, JsonVal.list items) =>
    (k, JsonVal.list (scrubListElems scrub_text items))
  | (k, v) => (k, v)

/-- The per-element action of the list branch of `scrub_dict`. -/
def scrubListElem (scrub_text : String → String) : JsonVal → JsonVal
  | JsonVal.str s => JsonVal.str (scrub_text s)
  | v => v

/-! # Theorems -/

/-! ## Dict lemmas -/

theorem dget_mapset_ne (d : List (String × String)) (k v k' : String)
    (h : k' ≠ k) :
    dget (d.map fun p => if p.1 = k then (k, v) else p) k' = dget d k' := by
  induction d with
  | nil => rfl
  | cons p rest ih =>
    by_cases hp : p.1 = k
    · simp only [dget, List.map_cons, List.find?] at ih ⊢
      have h1 : (decide ((if p.1 = k then (k, v) else p).1 = k')) = false := by
        simp [hp, Ne.symm h]
      have h2 : (decide (p.1 = k')) = false := by simp [hp, Ne.symm h]
      rw [h1, h2]
      exact ih
    · simp only [dget, List.map_cons, List.find?, if_neg hp] at ih ⊢
      by_cases hp' : p.1 = k'
      · simp [hp']
      · simp only [hp', decide_False]
        exact ih

theorem dget_mapset_self (d : List (String × String)) (k v : String)
    (hany : (d.any fun p => decide (p.1 = k)) = true) :
    dget (d.map fun p => if p.1 = k then (k, v) else p) k = some v := by
  induction d with
  | nil => simp at hany
  | cons p rest ih =>
    by_cases hp : p.1 = k
    · simp [dget, List.find?, hp]
    · simp only [List.any_cons, Bool.or_eq_true, decide_eq_true_eq] at hany
      rcases hany with h1 | h2
      · exact absurd h1 hp
      · have hd : (decide (p.1 = k)) = false := by simp [hp]
        simp only [dget, List.map_cons, List.find?, if_neg hp, hd] at ih ⊢
        exact ih h2

theorem dget_dset_ne (d : List (String × String)) (k v k' : String)
    (h : k' ≠ k) : dget (dset d k v) k' = dget d k' := by
  unfold dset
  split
  · exact dget_mapset_ne d k v k' h
  · unfold dget
    rw [List.find?_append]
    have hnone : List.find? (fun p => decide (p.1 = k')) [(k, v)] = none := by
      simp [Ne.symm h]
    simp [hnone]

theorem dget_dset_self (d : List (String × String)) (k v : String) :
    dget (dset d k v) k = some v := by
  unfold dset
  split
  · exact dget_mapset_self d k v (by assumption)
  · rename_i hany
    unfold dget
    rw [List.find?_append]
    have hnone : List.find? (fun p => decide (p.1 = k)) d = none := by
      rw [List.find?_eq_none]
      intro x hx hdec
      have hxk : x.1 = k := by simpa using hdec
      exact hany (List.any_eq_true.mpr ⟨x, hx, by simp [hxk]⟩)
    simp [hnone]

/-! ## C10: the header-merge operation -/

/-- C10 (amended): for every header map, `ensure_accept_headers` leaves every
entry other than `Accept` unchanged and guarantees that the result's `Accept`
value tokenizes to a list containing both `application/json` and
`text/event-stream`; a map lacking `Accept` gets exactly
`"application/json, text/event-stream"`.  However a caller-supplied `Accept`
value is never merged: if it already lists both required types the map is
returned verbatim, and otherwise `Accept` is overwritten wholesale by the
fixed string, discarding the caller's media types. -/
theorem C10_accept_amended (d : List (String × String)) :
    (∀ k, k ≠ "Accept" → dget (ensure_accept_headers (some d)) k = dget d k) ∧
    ((acceptTokens ((dget (ensure_accept_headers (some d)) "Accept").getD
        "")).contains "application/json" = true ∧
      (acceptTokens ((dget (ensure_accept_headers (some d)) "Accept").getD
        "")).contains "text/event-stream" = true) ∧
    (dget d "Accept" = none →
      dget (ensure_accept_headers (some d)) "Accept"
        = some "application/json, text/event-stream") ∧
    (∀ a, dget d "Accept" = some a →
      ((acceptTokens a).contains "application/json" = true ∧
          (acceptTokens a).contains "text/event-stream" = true →
        ensure_accept_headers (some d) = d) ∧
      (¬ ((acceptTokens a).contains "application/json" = true ∧
          (acceptTokens a).contains "text/event-stream" = true) →
        dget (ensure_accept_headers (some d)) "Accept"
          = some "application/json, text/event-stream")) := by
  have hdef : ensure_accept_headers (some d)
      = if !((acceptTokens ((dget d "Accept").getD "")).contains
            "application/json")
          || !((acceptTokens ((dget d "Accept").getD "")).contains
            "text/event-stream") then
          dset d "Accept" "application/json, text/event-stream"
        else d := rfl
  by_cases hc : (!((acceptTokens ((dget d "Accept").getD "")).contains
        "application/json")
      || !((acceptTokens ((dget d "Accept").getD "")).contains
        "text/event-stream")) = true
  · rw [hdef, if_pos hc]
    refine ⟨fun k hk => dget_dset_ne d "Accept" _ k hk, ?_, ?_, ?_⟩
    · rw [dget_dset_self]
      constructor <;> decide
    · intro _
      exact dget_dset_self d "Accept" _
    · intro a ha
      constructor
      · intro hboth
        exfalso
        rw [ha] at hc
        simp only [Option.getD] at hc
        rw [hboth.1, hboth.2] at hc
        simp at hc
      · intro _
        exact dget_dset_self d "Accept" _
  · rw [hdef, if_neg hc]
    have hc2 : (acceptTokens ((dget d "Accept").getD "")).contains
          "application/json" = true ∧
        (acceptTokens ((dget d "Accept").getD "")).contains
          "text/event-stream" = true := by
      rcases h1 : (acceptTokens ((dget d "Accept").getD "")).contains
          "application/json" with _ | _
      · exact absurd (by rw [h1]; rfl) hc
      · rcases h2 : (acceptTokens ((dget d "Accept").getD "")).contains
            "text/event-stream" with _ | _
        · exact absurd (by rw [h1, h2]; rfl) hc
        · exact ⟨rfl, rfl⟩
    obtain ⟨hA, hB⟩ := hc2
    have hsome : dget d "Accept" ≠ none := by
      intro hnone
      rw [hnone] at hA
      simp [Option.getD] at hA
      exact absurd hA (by decide)
    refine ⟨fun k _ => rfl, ?_, fun hnone => absurd hnone hsome, ?_⟩
    · exact ⟨hA, hB⟩
    · intro a ha
      rw [ha] at hA hB
      simp only [Option.getD] at hA hB
      exact ⟨fun _ => rfl, fun hnb => absurd ⟨hA, hB⟩ hnb⟩

/-- Witness for C10: on `{"Authorization": "Bearer abc", "Accept":
"text/html"}` the unrelated header survives and `Accept` becomes the fixed
dual value. -/
theorem C10_accept_amended_witness :
    ("Authorization" : String) ≠ "Accept" ∧
    dget (ensure_accept_headers
        (some [("Authorization", "Bearer abc"), ("Accept", "text/html")]))
        "Authorization"
      = dget [("Authorization", "Bearer abc"), ("Accept", "text/html")]
        "Authorization" ∧
    dget (ensure_accept_headers
        (some [("Authorization", "Bearer abc"), ("Accept", "text/html")]))
        "Accept"
      = some "application/json, text/event-stream" :=
  ⟨by decide,
   (C10_accept_amended
      [("Authorization", "Bearer abc"), ("Accept", "text/html")]).1
     "Authorization" (by decide),
   ((C10_accept_amended
       [("Authorization", "Bearer abc"), ("Accept", "text/html")]).2.2.2
      "text/html" (by decide)).2 (by decide)⟩

/-- Counterexample for C10 as stated: a caller-supplied `Accept` value of
`text/html` is not merged into the result — the result's `Accept` is exactly
the fixed pair and the caller's media type is gone. -/
theorem C10_counterexample :
    ensure_accept_headers (some [("Accept", "text/html")])
      = [("Accept", "application/json, text/event-stream")] ∧
    "text/html" ∈ acceptTokens "text/html" ∧
    "text/html" ∉ acceptTokens "application/json, text/event-stream" :=
  ⟨by decide, by decide, by decide⟩

/-! ## C9: JSON-RPC request ids -/

/-- C9 (amended): the initialize request carries the fixed id 1 and every
`tools/call` request carries the fixed id 2.  The id sequence of a lifetime
is therefore `1, 2, 2, ...`: it is duplicate-free and strictly increasing
only while at most one tool call is issued, and any two tool calls already
share the id 2. -/
theorem C9_request_ids_amended (n : Nat) :
    requestIds n = initializeRequestId :: List.replicate n toolsCallRequestId ∧
    initializeRequestId < toolsCallRequestId ∧
    (n ≤ 1 → (requestIds n).Nodup ∧ List.Chain' (· < ·) (requestIds n)) ∧
    (2 ≤ n → ¬ (requestIds n).Nodup) := by
  refine ⟨rfl, by decide, ?_, ?_⟩
  · intro hn
    have h0 : requestIds 0 = [initializeRequestId] := rfl
    have h1 : requestIds 1 = [initializeRequestId, toolsCallRequestId] := rfl
    interval_cases n
    · rw [h0]; exact ⟨by decide, by simp⟩
    · rw [h1]; exact ⟨by decide, by rw [List.chain'_pair]; decide⟩
  · intro hn h
    rw [requestIds] at h
    have h2 : (List.replicate n toolsCallRequestId).Nodup :=
      (List.nodup_cons.mp h).2
    rw [List.nodup_replicate] at h2
    omega

/-- Witness for C9 (amended): with a single tool call the ids `[1, 2]` are
unique and increasing. -/
theorem C9_request_ids_amended_witness :
    (1 : Nat) ≤ 1 ∧ (requestIds 1).Nodup ∧ List.Chain' (· < ·) (requestIds 1) :=
  ⟨by decide, ((C9_request_ids_amended 1).2.2.1 (by decide)).1,
    ((C9_request_ids_amended 1).2.2.1 (by decide)).2⟩

/-- Counterexample for C9 as stated: a Client that issues two tool calls
sends the id sequence `[1, 2, 2]`, in which the two `tools/call` requests
share the id 2 — ids are not unique within the Client's lifetime. -/
theorem C9_counterexample :
    requestIds 2 = [1, 2, 2] ∧ ¬ (requestIds 2).Nodup := by
  exact ⟨rfl, by decide⟩

/-! ## C4: resource limits versus the runner's arguments -/

/-- C4: the limits installed when the runner executes with explicit
`--cpu-seconds 5 --memory-mb 256` are the `apply_limits()` defaults
(CPU 10 s, address space 512 MiB), not the argument values: `main` parses the
arguments but `run_agent_code` calls `apply_limits()` with no arguments, so
whatever is parsed never reaches the rlimits.  (The last conjunct shows
`apply_limits` itself would honour explicit values, so the defect is the
missing wiring in `run.py`, not the limit code.) -/
theorem C4_limits_arguments_ignored :
    mainAppliedLimits { cpu_seconds := 5, memory_mb := 256 }
      = { cpu := 10, address_space := 512 * 1024 * 1024,
          nofile := 64, nproc := 64 } ∧
    (mainAppliedLimits { cpu_seconds := 5, memory_mb := 256 }).cpu ≠ 5 ∧
    (mainAppliedLimits { cpu_seconds := 5, memory_mb := 256 }).address_space
      ≠ 256 * 1024 * 1024 ∧
    apply_limits 5 256
      = { cpu := 5, address_space := 256 * 1024 * 1024,
          nofile := 64, nproc := 64 } :=
  ⟨rfl, by decide, by decide, rfl⟩

/-! ## C3: runner statuses and exit codes -/

/-- C3: user code that finishes normally yields `status = "success"` and exit
code 0; an uncaught exception yields `status = "error"`, a
`"Kind: message"` string on stderr and exit code 1; a `KeyboardInterrupt`
yields `status = "interrupted"` and exit code 130; and every outcome of the
user code is converted into a structured `ExecutionResult` (the conversion is
a total function whose status is always one of the three labels — nothing
propagates out of `run_agent_code`). -/
theorem C3_runner_outcomes (so se : String) (u : Usage) (kind msg : String) :
    ((run_agent_code CodeOutcome.normal so se u).status = "success" ∧
      mainExitCode (run_agent_code CodeOutcome.normal so se u) = 0 ∧
      (run_agent_code CodeOutcome.normal so se u).stdout = so ∧
      (run_agent_code CodeOutcome.normal so se u).stderr = se) ∧
    ((run_agent_code (CodeOutcome.raised kind msg) so se u).status = "error" ∧
      (run_agent_code (CodeOutcome.raised kind msg) so se u).stderr
        = kind ++ ": " ++ msg ∧
      mainExitCode (run_agent_code (CodeOutcome.raised kind msg) so se u) = 1) ∧
    ((run_agent_code CodeOutcome.interrupt so se u).status = "interrupted" ∧
      mainExitCode (run_agent_code CodeOutcome.interrupt so se u) = 130) ∧
    (∀ o : CodeOutcome, (run_agent_code o so se u).usage = u ∧
      ((run_agent_code o so se u).status = "success" ∨
        (run_agent_code o so se u).status = "error" ∨
        (run_agent_code o so se u).status = "interrupted")) := by
  refine ⟨?_, ?_, ?_, ?_⟩
  · exact ⟨rfl, by simp [run_agent_code, mainExitCode], rfl, rfl⟩
  · exact ⟨rfl, rfl, by simp [run_agent_code, mainExitCode]⟩
  · exact ⟨rfl, by simp [run_agent_code, mainExitCode]⟩
  · intro o
    cases o <;> simp [run_agent_code]

/-! ## C6: totality of the transport prober -/

theorem probeStep1_label (e : ProbeEnv) (r : String)
    (h : probeStep1 e = some r) : r = "streamable-http" := by
  unfold probeStep1 at h
  cases hm : e.headMcp with
  | err => rw [hm] at h; exact Option.noConfusion h
  | resp st ct =>
    rw [hm] at h
    simp only at h
    split_ifs at h with h1 h2
    · exact (Option.some.inj h).symm
    · cases hp : e.postMcp with
      | err => rw [hp] at h; exact Option.noConfusion h
      | resp st2 ct2 =>
        rw [hp] at h
        simp only at h
        split_ifs at h with h3
        exact (Option.some.inj h).symm

theorem probeStep2_label (e : ProbeEnv) (r : String)
    (h : probeStep2 e = some r) : r = "sse" := by
  unfold probeStep2 at h
  cases hm : e.headSse with
  | err => rw [hm] at h; exact Option.noConfusion h
  | resp st ct =>
    rw [hm] at h
    simp only at h
    split_ifs at h with h1 h2
    · exact (Option.some.inj h).symm
    · cases hp : e.getSse with
      | err => rw [hp] at h; exact Option.noConfusion h
      | resp st2 ct2 =>
        rw [hp] at h
        simp only at h
        split_ifs at h with h3
        exact (Option.some.inj h).symm

theorem probeStep3_label (e : ProbeEnv) (r : String)
    (h : probeStep3 e = some r) : r = "http-post" := by
  unfold probeStep3 at h
  cases hm : e.postProbe with
  | err => rw [hm] at h; exact Option.noConfusion h
  | resp st ct =>
    rw [hm] at h
    simp only at h
    split_ifs at h with h1
    exact (Option.some.inj h).symm

/-- C6: for every probe environment, `detect_transport` returns exactly one of
the four labels and never propagates an error: an erroring exchange makes only
its own step yield nothing (the remaining steps still run and can succeed, as
the sse and http-post conjuncts show), and when every step yields nothing —
in particular when every exchange errors — the result is `"unknown"`. -/
theorem C6_detect_transport_total (e : ProbeEnv) :
    (detect_transport e = "streamable-http" ∨ detect_transport e = "sse" ∨
      detect_transport e = "http-post" ∨ detect_transport e = "unknown") ∧
    (e.headMcp = HttpOutcome.err → probeStep1 e = none) ∧
    (e.headSse = HttpOutcome.err → probeStep2 e = none) ∧
    (e.postProbe = HttpOutcome.err → probeStep3 e = none) ∧
    (probeStep1 e = none → probeStep2 e = none → probeStep3 e = none →
      detect_transport e = "unknown") ∧
    (∀ ct, e.headMcp = HttpOutcome.err → e.headSse = HttpOutcome.resp 200 ct →
      hasEventStream ct = true → detect_transport e = "sse") ∧
    (∀ st ct, e.headMcp = HttpOutcome.err → e.headSse = HttpOutcome.err →
      e.postProbe = HttpOutcome.resp st ct →
      [200, 400, 401, 403, 415, 422].contains st = true →
      detect_transport e = "http-post") := by
  refine ⟨?_, ?_, ?_, ?_, ?_, ?_, ?_⟩
  · unfold detect_transport
    cases h1 : probeStep1 e with
    | some r => exact Or.inl (by rw [probeStep1_label e r h1])
    | none =>
      cases h2 : probeStep2 e with
      | some r => exact Or.inr (Or.inl (by rw [probeStep2_label e r h2]))
      | none =>
        cases h3 : probeStep3 e with
        | some r =>
          exact Or.inr (Or.inr (Or.inl (by rw [probeStep3_label e r h3])))
        | none => exact Or.inr (Or.inr (Or.inr rfl))
  · intro hm; unfold probeStep1; rw [hm]
  · intro hm; unfold probeStep2; rw [hm]
  · intro hm; unfold probeStep3; rw [hm]
  · intro h1 h2 h3; unfold detect_transport; rw [h1, h2, h3]
  · intro ct hm hs hes
    have h1 : probeStep1 e = none := by unfold probeStep1; rw [hm]
    have h2 : probeStep2 e = some "sse" := by
      unfold probeStep2; rw [hs]; simp [hes]
    unfold detect_transport
    rw [h1, h2]
  · intro st ct hm hs hp hmem
    have h1 : probeStep1 e = none := by unfold probeStep1; rw [hm]
    have h2 : probeStep2 e = none := by unfold probeStep2; rw [hs]
    have h3 : probeStep3 e = some "http-post" := by
      unfold probeStep3; rw [hp]; simp only; rw [if_pos hmem]
    unfold detect_transport
    rw [h1, h2, h3]

/-- Witness for C6: a host where every probe exchange errors (for example an
unreachable server) yields `"unknown"`. -/
theorem C6_detect_transport_total_witness :
    ({ } : ProbeEnv).headMcp = HttpOutcome.err ∧
    detect_transport { } = "unknown" :=
  ⟨rfl, (C6_detect_transport_total { }).2.2.2.2.1 rfl rfl rfl⟩

/-! ## C7: bounded output capture -/

theorem join_append (l1 l2 : List String) :
    String.join (l1 ++ l2) = String.join l1 ++ String.join l2 := by
  apply String.ext
  simp

theorem join_singleton (x : String) : String.join [x] = x := by
  apply String.ext
  simp

theorem write_saturated (s : TruncatedStringIO) (t : String)
    (h : s.max_size ≤ s.size) : s.write t = (s, 0) := by
  unfold TruncatedStringIO.write
  rw [if_pos h]

theorem writeAll_saturated (s : TruncatedStringIO) (ws : List String)
    (h : s.max_size ≤ s.size) : writeAll s ws = s := by
  induction ws with
  | nil => rfl
  | cons w rest ih =>
    show writeAll (s.write w).1 rest = s
    rw [write_saturated s w h]
    exact ih

/-- C7 (amended): a write issued while the buffer is strictly below its bound
that would cross the bound stores only the prefix that fits, followed by the
fixed truncation marker, leaving exactly `max_size` characters of content plus
the marker; and every write issued once `size` has reached `max_size` — which
also happens when a write exactly fills the buffer, in which case no marker is
ever appended — is a no-op returning 0, not an error.  (`hlen` records that
`size` equals the accumulated content length, which holds for every buffer
reached from a fresh one without prior truncation.) -/
theorem C7_truncation_amended (s : TruncatedStringIO) (text : String)
    (hlow : s.size < s.max_size)
    (hover : s.max_size < s.size + text.length)
    (hlen : s.getvalue.length = s.size) :
    (s.write text).1.size = s.max_size ∧
    (s.write text).1.getvalue
      = s.getvalue ++ (⟨text.data.take (s.max_size - s.size)⟩ : String)
          ++ truncationMarker s.max_size ∧
    (s.write text).1.getvalue.length
      = s.max_size + (truncationMarker s.max_size).length ∧
    (s.write text).2 = s.max_size - s.size ∧
    (∀ t2, (s.write text).1.write t2 = ((s.write text).1, 0)) ∧
    (∀ ws, writeAll (s.write text).1 ws = (s.write text).1) := by
  have hcond : ¬ (s.size ≥ s.max_size) := by omega
  have havail : text.length > s.max_size - s.size := by omega
  have hw : s.write text
      = ({ s with
            buffer := s.buffer
              ++ [(⟨text.data.take (s.max_size - s.size)⟩ : String)]
              ++ [truncationMarker s.max_size],
            size := s.max_size },
         (⟨text.data.take (s.max_size - s.size)⟩ : String).length) := by
    unfold TruncatedStringIO.write
    rw [if_neg hcond, if_pos havail]
  have hkeptlen : (⟨text.data.take (s.max_size - s.size)⟩ : String).length
      = s.max_size - s.size := by
    show (text.data.take (s.max_size - s.size)).length = s.max_size - s.size
    rw [List.length_take]
    have : text.length = text.data.length := rfl
    omega
  refine ⟨by rw [hw], ?_, ?_, ?_, ?_, ?_⟩
  · rw [hw]
    show String.join (s.buffer ++ [_] ++ [_]) = _
    rw [join_append, join_append]
    simp [ TruncatedStringIO.getvalue, String.join]
  · rw [hw]
    show (String.join (s.buffer ++ [_] ++ [_])).length = _
    rw [join_append, join_append, join_singleton, join_singleton]
    have hsplit : (String.join s.buffer
          ++ (⟨text.data.take (s.max_size - s.size)⟩ : String)
          ++ truncationMarker s.max_size).length
        = (String.join s.buffer).length
          + (⟨text.data.take (s.max_size - s.size)⟩ : String).length
          + (truncationMarker s.max_size).length := by
      simp [Nat.add_assoc]
    rw [hsplit, hkeptlen]
    have hjb : (String.join s.buffer).length = s.size := hlen
    omega
  · rw [hw, hkeptlen]
  · intro t2
    apply write_saturated
    rw [hw]
  · intro ws
    apply writeAll_saturated
    rw [hw]

/-- Witness for C7 (amended): a 4-character buffer holding `"ab"` that
receives `"xyz"` keeps `"xy"` plus the marker and then ignores further
writes. -/
theorem C7_truncation_amended_witness :
    ((⟨4, ["ab"], 2⟩ : TruncatedStringIO).size
        < (⟨4, ["ab"], 2⟩ : TruncatedStringIO).max_size) ∧
    ((⟨4, ["ab"], 2⟩ : TruncatedStringIO).write "xyz").1.getvalue
      = (⟨4, ["ab"], 2⟩ : TruncatedStringIO).getvalue
        ++ (⟨("xyz" : String).data.take (4 - 2)⟩ : String)
        ++ truncationMarker 4 ∧
    writeAll ((⟨4, ["ab"], 2⟩ : TruncatedStringIO).write "xyz").1 ["p", "q"]
      = ((⟨4, ["ab"], 2⟩ : TruncatedStringIO).write "xyz").1 :=
  ⟨by decide,
   (C7_truncation_amended ⟨4, ["ab"], 2⟩ "xyz" (by decide) (by decide)
     (by decide)).2.1,
   (C7_truncation_amended ⟨4, ["ab"], 2⟩ "xyz" (by decide) (by decide)
     (by decide)).2.2.2.2.2 ["p", "q"]⟩

/-- Counterexample for C7 as stated: with bound 4 and the write sequence
`["abcd", "e"]`, the write `"e"` would exceed the bound, yet the buffer ends
as exactly `"abcd"` with no truncation marker — because the first write
filled the buffer exactly, the overflowing write is discarded without ever
appending the marker the claim promises. -/
theorem C7_counterexample :
    4 < ("abcd" : String).length + ("e" : String).length ∧
    (writeAll { max_size := 4 } ["abcd", "e"]).getvalue = "abcd" ∧
    (writeAll { max_size := 4 } ["abcd", "e"]).buffer = ["abcd"] ∧
    (writeAll { max_size := 4 } ["abcd", "e"]).getvalue
      ≠ "abcd" ++ truncationMarker 4 :=
  ⟨by decide, by decide, by decide, by decide⟩

/-! ## C2: the retry policy of `Client.call_tool` -/

/-- Running the `call_tool` loop through `j` consecutive transport failures
starting at attempt `i`: it sleeps `0.3 * 2 ^ k` before each retry and ends up
at attempt `i + j` with the last transport error recorded. -/
theorem callToolGo_skip (attempts : Nat → AttemptOutcome) (retries : Nat)
    (es : Nat → String) (j : Nat) :
    ∀ (i : Nat) (last : Option String), i + j ≤ retries →
    (∀ k, i ≤ k → k < i + j → attempts k = AttemptOutcome.transportErr (es k)) →
    callToolGo attempts retries i (retries + 1 - i) last
      = ((callToolGo attempts retries (i + j) (retries + 1 - (i + j))
            (if j = 0 then last else some (es (i + j - 1)))).1,
         ((List.range j).map (fun k => (3 : ℚ) / 10 * 2 ^ (i + k)))
           ++ (callToolGo attempts retries (i + j) (retries + 1 - (i + j))
                 (if j = 0 then last else some (es (i + j - 1)))).2) := by
  induction j with
  | zero =>
    intro i last _ _
    simp
  | succ n ih =>
    intro i last hle hfail
    have hi : i < retries := by omega
    have hfuel : retries + 1 - i = (retries - i) + 1 := by omega
    have hstep : attempts i = AttemptOutcome.transportErr (es i) :=
      hfail i (Nat.le_refl i) (by omega)
    rw [hfuel]
    show (callToolGo attempts retries i ((retries - i) + 1) last) = _
    rw [callToolGo]
    rw [hstep]
    simp only [if_pos hi]
    have hfuel2 : retries - i = retries + 1 - (i + 1) := by omega
    rw [hfuel2]
    have ihh := ih (i + 1) (some (es i)) (by omega)
      (fun k hk1 hk2 => hfail k (by omega) (by omega))
    rw [ihh]
    have hlast : (if n = 0 then some (es i) else some (es (i + 1 + n - 1)))
        = some (es (i + (n + 1) - 1)) := by
      by_cases hn : n = 0
      · subst hn; simp
      · rw [if_neg hn]
        congr 1
        congr 1
        omega
    have hidx : i + 1 + n = i + (n + 1) := by omega
    rw [hidx] at hlast ⊢
    rw [hlast]
    have hif : (if n + 1 = 0 then last else some (es (i + (n + 1) - 1)))
        = some (es (i + (n + 1) - 1)) := by
      rw [if_neg (Nat.succ_ne_zero n)]
    rw [hif]
    rw [Prod.mk.injEq]
    refine ⟨rfl, ?_⟩
    rw [List.range_succ_eq_map, List.map_cons, List.map_map]
    have hfun : ((fun k => (3 : ℚ) / 10 * 2 ^ (i + k)) ∘ Nat.succ)
        = (fun k => (3 : ℚ) / 10 * 2 ^ (i + 1 + k)) := by
      funext a
      show (3 : ℚ) / 10 * 2 ^ (i + (a + 1)) = (3 : ℚ) / 10 * 2 ^ (i + 1 + a)
      have h2 : i + (a + 1) = i + 1 + a := by omega
      rw [h2]
    rw [hfun]
    congr 1

/-- C2: in `call_tool`, only transport errors are retried; with `retries`
additional attempts configured (default 2), the k-th failed attempt is
followed by a backoff sleep of `0.3 * 2 ^ k` seconds only if a retry is left;
a successful attempt returns its result; a JSON-RPC error (and likewise an
HTTP status error) at any attempt is raised at once, with no further attempt
and no further delay; and when every attempt fails with a transport error,
`ToolCallError` wrapping the last transport error is raised after sleeps of
exactly 0.3, 0.6, ..., `0.3 * 2 ^ (retries - 1)`. -/
theorem C2_retry_policy (retries : Nat) (attempts : Nat → AttemptOutcome)
    (es : Nat → String) :
    defaultRetries = 2 ∧
    (∀ j r, j ≤ retries →
      (∀ k, k < j → attempts k = AttemptOutcome.transportErr (es k)) →
      attempts j = AttemptOutcome.ok r →
      call_tool_retry attempts retries
        = (CallOutcome.result r,
           (List.range j).map (fun k => (3 : ℚ) / 10 * 2 ^ k))) ∧
    (∀ j c m, j ≤ retries →
      (∀ k, k < j → attempts k = AttemptOutcome.transportErr (es k)) →
      attempts j = AttemptOutcome.rpcErr c m →
      call_tool_retry attempts retries
        = (CallOutcome.raisedRpc c m,
           (List.range j).map (fun k => (3 : ℚ) / 10 * 2 ^ k))) ∧
    (∀ j c, j ≤ retries →
      (∀ k, k < j → attempts k = AttemptOutcome.transportErr (es k)) →
      attempts j = AttemptOutcome.statusErr c →
      call_tool_retry attempts retries
        = (CallOutcome.raisedStatus c,
           (List.range j).map (fun k => (3 : ℚ) / 10 * 2 ^ k))) ∧
    ((∀ k, k ≤ retries → attempts k = AttemptOutcome.transportErr (es k)) →
      call_tool_retry attempts retries
        = (CallOutcome.raisedToolCall (some (es retries)),
           (List.range retries).map (fun k => (3 : ℚ) / 10 * 2 ^ k))) := by
  have hskip : ∀ j, j ≤ retries →
      (∀ k, k < j → attempts k = AttemptOutcome.transportErr (es k)) →
      call_tool_retry attempts retries
        = ((callToolGo attempts retries j (retries + 1 - j)
              (if j = 0 then none else some (es (j - 1)))).1,
           ((List.range j).map (fun k => (3 : ℚ) / 10 * 2 ^ k))
             ++ (callToolGo attempts retries j (retries + 1 - j)
                   (if j = 0 then none else some (es (j - 1)))).2) := by
    intro j hj hfail
    have hs := callToolGo_skip attempts retries es j 0 none (by omega)
      (fun k _ hk2 => hfail k (by omega))
    simp only [Nat.zero_add, Nat.sub_zero] at hs
    exact hs
  refine ⟨rfl, ?_, ?_, ?_, ?_⟩
  · intro j r hj hfail hok
    rw [hskip j hj hfail]
    have hfuel : retries + 1 - j = (retries - j) + 1 := by omega
    rw [hfuel, callToolGo, hok]
    simp
  · intro j c m hj hfail hrpc
    rw [hskip j hj hfail]
    have hfuel : retries + 1 - j = (retries - j) + 1 := by omega
    rw [hfuel, callToolGo, hrpc]
    simp
  · intro j c hj hfail hst
    rw [hskip j hj hfail]
    have hfuel : retries + 1 - j = (retries - j) + 1 := by omega
    rw [hfuel, callToolGo, hst]
    simp
  · intro hfail
    rw [hskip retries (Nat.le_refl retries) (fun k hk => hfail k (by omega))]
    have hfuel : retries + 1 - retries = 0 + 1 := by omega
    rw [hfuel, callToolGo, hfail retries (Nat.le_refl retries)]
    simp only [Nat.lt_irrefl, if_neg]
    rw [callToolGo]
    simp

/-- Witness for C2: with the default 2 retries, a transport error on attempt 0
followed by a JSON-RPC error on attempt 1 yields an immediately raised
`JSONRPCError` after a single 0.3-second backoff. -/
theorem C2_retry_policy_witness :
    call_tool_retry
        (fun k => if k = 0 then AttemptOutcome.transportErr "conn-reset"
                  else AttemptOutcome.rpcErr (-32600) "invalid request") 2
      = (CallOutcome.raisedRpc (-32600) "invalid request", [(3 : ℚ) / 10]) := by
  have h := (C2_retry_policy 2
      (fun k => if k = 0 then AttemptOutcome.transportErr "conn-reset"
                else AttemptOutcome.rpcErr (-32600) "invalid request")
      (fun _ => "conn-reset")).2.2.1 1 (-32600) "invalid request"
      (by omega)
      (fun k hk => by
        have hk0 : k = 0 := by omega
        subst hk0
        rfl)
      rfl
  rw [h]
  have hr : List.range 1 = [0] := rfl
  rw [hr]
  norm_num

/-! ## C5: idempotence of `ensure_ready` -/

/-- `clientInitialize` reads only the constructor headers, so caching a probed
transport does not change the handshake's outcome. -/
theorem clientInitialize_transport_irrel (c : ClientState) (t : String)
    (env : InitEnv) :
    clientInitialize { c with transportCache := some t } env
      = clientInitialize c env := rfl

/-- A successful `ensure_ready` leaves both caches populated. -/
theorem ensure_ready_ok_state (c : ClientState) (p : Except String String)
    (e : InitEnv) (c' : ClientState)
    (h : (ensure_ready c p e).1 = (c', Except.ok ())) :
    c'.transportCache.isSome = true ∧ c'.initCache.isSome = true := by
  obtain ⟨ha, hr, tc, ic, sh⟩ := c
  unfold ensure_ready at h
  cases tc with
  | none =>
    cases p with
    | error msg =>
      exact absurd (congrArg Prod.snd h) (by simp)
    | ok t =>
      simp only at h
      cases ic with
      | none =>
        cases hinit : clientInitialize ⟨ha, hr, some t, none, sh⟩ e with
        | error msg =>
          rw [hinit] at h
          exact absurd (congrArg Prod.snd h) (by simp)
        | ok res =>
          obtain ⟨cache, stored⟩ := res
          rw [hinit] at h
          have hc : c' = ⟨ha, hr, some t, some cache, some stored⟩ :=
            (congrArg Prod.fst h).symm
          subst hc
          exact ⟨rfl, rfl⟩
      | some i =>
        have hc : c' = ⟨ha, hr, some t, some i, sh⟩ :=
          (congrArg Prod.fst h).symm
        subst hc
        exact ⟨rfl, rfl⟩
  | some t =>
    cases ic with
    | none =>
      simp only at h
      cases hinit : clientInitialize ⟨ha, hr, some t, none, sh⟩ e with
      | error msg =>
        rw [hinit] at h
        exact absurd (congrArg Prod.snd h) (by simp)
      | ok res =>
        obtain ⟨cache, stored⟩ := res
        rw [hinit] at h
        have hc : c' = ⟨ha, hr, some t, some cache, some stored⟩ :=
          (congrArg Prod.fst h).symm
        subst hc
        exact ⟨rfl, rfl⟩
    | some i =>
      have hc : c' = ⟨ha, hr, some t, some i, sh⟩ :=
        (congrArg Prod.fst h).symm
      subst hc
      exact ⟨rfl, rfl⟩

/-- Once both caches are populated, `ensure_ready` is a no-op performing no
probe and no handshake. -/
theorem ensure_ready_cached (c : ClientState) (p : Except String String)
    (e : InitEnv) (t : String) (i : InitializeCache)
    (ht : c.transportCache = some t) (hi : c.initCache = some i) :
    ensure_ready c p e = ((c, Except.ok ()), 0, 0) := by
  unfold ensure_ready
  rw [ht, hi]

/-- C5: `ensure_ready` is idempotent and failure-safe.  Once both the probe
and the handshake have succeeded, every further call performs zero probes and
zero handshakes and leaves the state untouched (conjuncts 1 and 2, the second
applying to the state produced by any successful call, so two consecutive
calls from a fresh client perform exactly one probe and one handshake —
conjunct 5).  A failed probe leaves the client exactly in its prior state
(conjunct 3), and a failed handshake caches neither an initialize result nor
headers, leaving the client retryable (conjunct 4). -/
theorem C5_ensure_ready_idempotent (c : ClientState)
    (p p2 : Except String String) (e e2 : InitEnv) :
    (∀ t i, c.transportCache = some t → c.initCache = some i →
      ensure_ready c p e = ((c, Except.ok ()), 0, 0)) ∧
    (∀ c', (ensure_ready c p e).1 = (c', Except.ok ()) →
      ensure_ready c' p2 e2 = ((c', Except.ok ()), 0, 0)) ∧
    (∀ msg, c.transportCache = none → p = Except.error msg →
      ensure_ready c p e = ((c, Except.error msg), 1, 0)) ∧
    (∀ msg, c.initCache = none → clientInitialize c e = Except.error msg →
      (ensure_ready c p e).1.1.initCache = none ∧
      (ensure_ready c p e).1.1.storedHeaders = c.storedHeaders ∧
      (ensure_ready c p e).1.1.headersArg = c.headersArg) ∧
    (∀ t res, c.transportCache = none → c.initCache = none →
      p = Except.ok t →
      clientInitialize { c with transportCache := some t } e
        = Except.ok res →
      (ensure_ready c p e).2 = (1, 1) ∧
      (ensure_ready c p e).1.2 = Except.ok ()) := by
  refine ⟨?_, ?_, ?_, ?_, ?_⟩
  · intro t i ht hi
    exact ensure_ready_cached c p e t i ht hi
  · intro c' h
    obtain ⟨hts, his⟩ := ensure_ready_ok_state c p e c' h
    obtain ⟨t, ht⟩ := Option.isSome_iff_exists.mp hts
    obtain ⟨i, hi⟩ := Option.isSome_iff_exists.mp his
    exact ensure_ready_cached c' p2 e2 t i ht hi
  · intro msg ht hp
    unfold ensure_ready
    rw [ht, hp]
  · intro msg hi hinit
    obtain ⟨ha, hr, tc, ic, sh⟩ := c
    simp only at hi hinit ⊢
    subst hi
    unfold ensure_ready
    cases tc with
    | none =>
      cases p with
      | error m2 => exact ⟨rfl, rfl, rfl⟩
      | ok t =>
        simp only
        have hinit2 : clientInitialize ⟨ha, hr, some t, none, sh⟩ e
            = Except.error msg := hinit
        rw [hinit2]
        exact ⟨rfl, rfl, rfl⟩
    | some t =>
      simp only
      have hinit2 : clientInitialize ⟨ha, hr, some t, none, sh⟩ e
          = Except.error msg := hinit
      rw [hinit2]
      exact ⟨rfl, rfl, rfl⟩
  · intro t res ht hi hp hinit
    obtain ⟨ha, hr, tc, ic, sh⟩ := c
    simp only at ht hi hinit ⊢
    subst ht
    subst hi
    subst hp
    obtain ⟨cache, stored⟩ := res
    unfold ensure_ready
    simp only
    rw [hinit]
    exact ⟨rfl, rfl⟩

/-- Witness for C5: starting from a fresh client, one successful
`ensure_ready` (probe result `"post"`, handshake succeeding) produces a state
on which a second `ensure_ready` is a no-op performing zero probes and zero
handshakes. -/
theorem C5_ensure_ready_idempotent_witness :
    (ensure_ready {} (Except.ok "post") {}).1
      = ((ensure_ready {} (Except.ok "post") {}).1.1, Except.ok ()) ∧
    ensure_ready ((ensure_ready {} (Except.ok "post") {}).1.1)
        (Except.ok "post") {}
      = (((ensure_ready {} (Except.ok "post") {}).1.1, Except.ok ()), 0, 0) :=
  ⟨rfl,
   (C5_ensure_ready_idempotent {} (Except.ok "post") (Except.ok "post")
       {} {}).2.1
     ((ensure_ready {} (Except.ok "post") {}).1.1) rfl⟩

/-! ## C1: the session header on `tools/call` requests -/

/-- C1: a fresh client (no constructor headers) completes `ensure_ready`
against a server that returns session id `"sess-123"` and protocol version
`"2025-03-26"`.  The session id is stored in `self._headers` ("for subsequent
requests") and the negotiated version lands on the `tools/call` request — but
the `tools/call` request carries no `Mcp-Session-Id` header at all, because
`call_tool` rebuilds its headers from `self.headers` instead of the stored
`self._headers`. -/
theorem C1_session_header_missing :
    dget (((ensure_ready {} (Except.ok "post")
        { sessionId := some "sess-123",
          respProtocolVersion := some "2025-03-26" }).1.1).storedHeaders.getD
          []) "Mcp-Session-Id" = some "sess-123" ∧
    (ensure_ready {} (Except.ok "post")
        { sessionId := some "sess-123",
          respProtocolVersion := some "2025-03-26" }).1.1.initCache
      = some ⟨"2025-03-26", []⟩ ∧
    dget (callToolRequestHeaders ((ensure_ready {} (Except.ok "post")
        { sessionId := some "sess-123",
          respProtocolVersion := some "2025-03-26" }).1.1))
      "mcp-protocol-version" = some "2025-03-26" ∧
    dget (callToolRequestHeaders ((ensure_ready {} (Except.ok "post")
        { sessionId := some "sess-123",
          respProtocolVersion := some "2025-03-26" }).1.1))
      "Mcp-Session-Id" = none :=
  ⟨by decide, by decide, by decide, by decide⟩

/-! ## C8: the structured scrubber -/

theorem scrubListElems_eq_map (f : String → String) (items : List JsonVal) :
    scrubListElems f items = items.map (scrubListElem f) := by
  induction items with
  | nil => rfl
  | cons v rest ih =>
    cases v <;> simp [scrubListElems, scrubListElem, ih]

theorem scrub_dict_eq_map (f : String → String)
    (d : List (String × JsonVal)) :
    scrub_dict f d = d.map (scrubEntry f) := by
  induction d with
  | nil => simp [scrub_dict]
  | cons p rest ih =>
    obtain ⟨k, v⟩ := p
    cases v <;> simp [scrub_dict, scrubEntry, ih]

/-- C8 (amended): `scrub_dict` maps each entry independently, preserving keys
and their order.  A string value under a credential-suggestive key becomes
`"[REDACTED]"` and any other string value is passed through `scrub_text`;
a dict value is scrubbed recursively; a list value has exactly its top-level
string elements passed through `scrub_text` while every non-string element of
a list (including nested dicts and lists, with all their contents) is copied
through unprocessed; and a non-string scalar value passes through unchanged
even under a credential-suggestive key. -/
theorem C8_scrub_dict_amended (f : String → String)
    (d : List (String × JsonVal)) :
    ((scrub_dict f d).map Prod.fst = d.map Prod.fst) ∧
    (∀ k s, (k, JsonVal.str s) ∈ d → sensitiveKey k = true →
      (k, JsonVal.str "[REDACTED]") ∈ scrub_dict f d) ∧
    (∀ k s, (k, JsonVal.str s) ∈ d → sensitiveKey k = false →
      (k, JsonVal.str (f s)) ∈ scrub_dict f d) ∧
    (∀ k d2, (k, JsonVal.dict d2) ∈ d →
      (k, JsonVal.dict (scrub_dict f d2)) ∈ scrub_dict f d) ∧
    (∀ k items, (k, JsonVal.list items) ∈ d →
      (k, JsonVal.list (scrubListElems f items)) ∈ scrub_dict f d) ∧
    (∀ k n, (k, JsonVal.num n) ∈ d → (k, JsonVal.num n) ∈ scrub_dict f d) ∧
    (∀ k b, (k, JsonVal.boolean b) ∈ d →
      (k, JsonVal.boolean b) ∈ scrub_dict f d) ∧
    (∀ k, (k, JsonVal.null) ∈ d → (k, JsonVal.null) ∈ scrub_dict f d) ∧
    (∀ items v, v ∈ items → (∀ s, v ≠ JsonVal.str s) →
      v ∈ scrubListElems f items) ∧
    (∀ items s, JsonVal.str s ∈ items →
      JsonVal.str (f s) ∈ scrubListElems f items) := by
  refine ⟨?_, ?_, ?_, ?_, ?_, ?_, ?_, ?_, ?_, ?_⟩
  · rw [scrub_dict_eq_map, List.map_map]
    apply List.map_congr_left
    intro p _
    obtain ⟨k, v⟩ := p
    cases v <;> rfl
  · intro k s hm hsens
    rw [scrub_dict_eq_map]
    have : (k, JsonVal.str "[REDACTED]") = scrubEntry f (k, JsonVal.str s) := by
      simp [scrubEntry, hsens]
    rw [this]
    exact List.mem_map_of_mem _ hm
  · intro k s hm hsens
    rw [scrub_dict_eq_map]
    have : (k, JsonVal.str (f s)) = scrubEntry f (k, JsonVal.str s) := by
      simp [scrubEntry, hsens]
    rw [this]
    exact List.mem_map_of_mem _ hm
  · intro k d2 hm
    rw [scrub_dict_eq_map]
    exact List.mem_map_of_mem _ hm
  · intro k items hm
    rw [scrub_dict_eq_map]
    exact List.mem_map_of_mem _ hm
  · intro k n hm
    rw [scrub_dict_eq_map]
    exact List.mem_map_of_mem _ hm
  · intro k b hm
    rw [scrub_dict_eq_map]
    exact List.mem_map_of_mem _ hm
  · intro k hm
    rw [scrub_dict_eq_map]
    exact List.mem_map_of_mem _ hm
  · intro items v hm hns
    rw [scrubListElems_eq_map]
    have : v = scrubListElem f v := by
      cases v with
      | str s => exact absurd rfl (hns s)
      | num n => rfl
      | boolean b => rfl
      | null => rfl
      | list l => rfl
      | dict d2 => rfl
    rw [this]
    exact List.mem_map_of_mem _ hm
  · intro items s hm
    rw [scrubListElems_eq_map]
    have : JsonVal.str (f s) = scrubListElem f (JsonVal.str s) := rfl
    rw [this]
    exact List.mem_map_of_mem _ hm

/-- Witness for C8 (amended): on
`{"api_key": "abc123", "note": "jane@example.com"}` with a scrub-text pass
that redacts the e-mail, the credential key is redacted wholesale and the
other string value is scrubbed. -/
theorem C8_scrub_dict_amended_witness :
    sensitiveKey "api_key" = true ∧
    sensitiveKey "note" = false ∧
    ("api_key", JsonVal.str "[REDACTED]")
      ∈ scrub_dict (fun _ => "[EMAIL]")
          [("api_key", JsonVal.str "abc123"),
           ("note", JsonVal.str "jane@example.com")] ∧
    ("note", JsonVal.str "[EMAIL]")
      ∈ scrub_dict (fun _ => "[EMAIL]")
          [("api_key", JsonVal.str "abc123"),
           ("note", JsonVal.str "jane@example.com")] :=
  ⟨by decide, by decide,
   (C8_scrub_dict_amended (fun _ => "[EMAIL]")
       [("api_key", JsonVal.str "abc123"),
        ("note", JsonVal.str "jane@example.com")]).2.1
     "api_key" "abc123" (by simp) (by decide),
   (C8_scrub_dict_amended (fun _ => "[EMAIL]")
       [("api_key", JsonVal.str "abc123"),
        ("note", JsonVal.str "jane@example.com")]).2.2.1
     "note" "jane@example.com" (by simp) (by decide)⟩

/-- Counterexample for C8 as stated: even with a scrub-text pass that replaces
every string, `scrub_dict` leaves `{"token": 5}` untouched (the wholesale
key-redaction applies only to string values, contradicting "regardless of its
value's content"), and a dict nested inside a list — here carrying the raw
secret `"hunter2"` under the key `"password"` — passes through entirely
unprocessed (contradicting "nested maps and nested lists are processed
recursively"). -/
theorem C8_counterexample :
    scrub_dict (fun _ => "[SCRUBBED]")
        [("token", JsonVal.num 5),
         ("outer", JsonVal.list
            [JsonVal.dict [("password", JsonVal.str "hunter2")]])]
      = [("token", JsonVal.num 5),
         ("outer", JsonVal.list
            [JsonVal.dict [("password", JsonVal.str "hunter2")]])] ∧
    sensitiveKey "token" = true ∧
    sensitiveKey "password" = true ∧
    JsonVal.num 5 ≠ JsonVal.str "[REDACTED]" ∧
    JsonVal.str "hunter2" ≠ JsonVal.str "[REDACTED]" := by
  refine ⟨?_, by decide, by decide, fun h => JsonVal.noConfusion h, ?_⟩
  · simp [scrub_dict, scrubListElems, sensitiveKey]
  · intro h
    have : "hunter2" = "[REDACTED]" := JsonVal.str.inj h
    exact absurd this (by decide)
